import Mathlib

/-!
# Verification of the taiko-web preview subsystem (`app.py`)

Shallow embedding of the chart-parsing and preview-generation core of
`app.py`: `parse_osu`, `get_osu_key`, `get_preview`, `get_tja_preview`
and `make_preview`.

Embedding conventions:

* A chart file is represented by its list of lines, i.e. the result of the
  Python pipeline `f.read().decode('shift-jis','ignore').replace('\x00','')
  .split('\n')`; byte decoding and NUL stripping happen before the logic
  modelled here and are not modelled.
* Python `str.strip()` is `pyStrip`, `str.lower()` is `pyLower` (ASCII case
  folding; the charts' ASCII keywords are all that the claims touch), and
  `line.split(':', 1)` together with the `':' in line` test is `breakAtColon`,
  which returns `some (before, after)` exactly when the line contains a colon.
* Python `float(...)` is modelled exactly over `ℚ` by `parsePyFloat`
  (sign, integer/fraction digits, optional exponent; special forms such as
  `inf`, `nan` and digit underscores are out of scope of the claims), and
  `int(...)` applied to a float is `pyTruncInt` (truncation toward zero).
  `int(...)` applied to a string is `parsePyInt`.
* The file system is an explicit `FS` value: a path-indexed list of text
  files plus a path-indexed list of directory listings.  Python exceptions
  (`KeyError`, `IndexError`, `FileNotFoundError`, `ValueError`) become
  `Except.error` values tagged with the exception name.
* `make_preview`'s side effects are explicit: it returns the resulting file
  system, the list of ffmpeg invocations performed (with the `-ss` seek in
  seconds), and the Python return value (`False` becomes `none`, a returned
  path becomes `some path`).
-/

/-- Python `str.strip()` on the characters of `s` (ASCII whitespace). -/
def pyStrip (s : String) : String :=
  String.mk (((s.data.dropWhile Char.isWhitespace).reverse.dropWhile Char.isWhitespace).reverse)

/-- Python `str.lower()` (ASCII case folding, one character at a time). -/
def pyLower (s : String) : String := String.mk (s.data.map Char.toLower)

/-- Split a character list at its first colon.  `breakAtColon cs = some (a, b)`
iff `cs = a ++ ':' :: b` with `a` colon-free; `none` iff `cs` has no colon.
This models Python's `line.split(':', 1)` (the two-element result) and at the
same time the `':' in line` membership test (the `some`/`none` distinction). -/
def breakAtColon : List Char → Option (List Char × List Char)
  | [] => none
  | c :: rest =>
    if c = ':' then some ([], rest)
    else
      match breakAtColon rest with
      | some p => some (c :: p.1, p.2)
      | none => none

/-- Numeric value of a list of decimal digit characters (most significant first). -/
def digitsVal (cs : List Char) : Nat := cs.foldl (fun a c => a * 10 + (c.toNat - 48)) 0

/-- `true` iff `cs` is a nonempty list of decimal digits. -/
def isDigits (cs : List Char) : Bool := !cs.isEmpty && cs.all Char.isDigit

/-- Split a character list on every occurrence of `c` (like Python `str.split(c)`:
the result has one more element than there are occurrences of `c`). -/
def splitOnCharL (c : Char) : List Char → List (List Char)
  | [] => [[]]
  | a :: rest =>
    let r := splitOnCharL c rest
    if a = c then [] :: r
    else
      match r with
      | h :: t => (a :: h) :: t
      | [] => [[a]]

/-- Mantissa of a Python float literal: digits with an optional single decimal
point; at least one digit overall (`"1"`, `"1.5"`, `".5"`, `"1."`). -/
def parseMantissa (cs : List Char) : Option ℚ :=
  match splitOnCharL '.' cs with
  | [i] => if isDigits i then some ((digitsVal i : ℚ)) else none
  | [i, f] =>
    if i.isEmpty && f.isEmpty then none
    else if i.all Char.isDigit && f.all Char.isDigit then
      some ((digitsVal i : ℚ) + (digitsVal f : ℚ) / (10 : ℚ) ^ f.length)
    else none
  | _ => none

/-- Exponent part of a Python float literal: optionally signed digits. -/
def parseExpPart (cs : List Char) : Option ℤ :=
  match cs with
  | '+' :: r => if isDigits r then some ((digitsVal r : ℤ)) else none
  | '-' :: r => if isDigits r then some (-(digitsVal r : ℤ)) else none
  | r => if isDigits r then some ((digitsVal r : ℤ)) else none

/-- Unsigned body of a Python float literal: mantissa with optional `e` exponent. -/
def parseFloatBody (body : List Char) : Option ℚ :=
  match splitOnCharL 'e' body with
  | [m] => parseMantissa m
  | [m, e] =>
    match parseMantissa m, parseExpPart e with
    | some mv, some ev => some (mv * (10 : ℚ) ^ ev)
    | _, _ => none
  | _ => none

/-- Python `float(s)` for decimal literals, computed exactly in `ℚ`:
optional sign, digits with optional decimal point, optional `e`/`E` exponent.
Returns `none` where Python raises `ValueError`. -/
def parsePyFloat (s : String) : Option ℚ :=
  match (pyLower s).data with
  | '+' :: r => parseFloatBody r
  | '-' :: r => (parseFloatBody r).map (fun v => -v)
  | r => parseFloatBody r

/-- Python `int(s)` on a string: optional sign and decimal digits
(whitespace around the number is stripped, as Python does).
Returns `none` where Python raises `ValueError`. -/
def parsePyInt (s : String) : Option ℤ :=
  match (pyStrip s).data with
  | '+' :: r => if isDigits r then some ((digitsVal r : ℤ)) else none
  | '-' :: r => if isDigits r then some (-(digitsVal r : ℤ)) else none
  | r => if isDigits r then some ((digitsVal r : ℤ)) else none

/-- Python `int(x)` on a float value: truncation toward zero, on the exact
rational model of the float. -/
def pyTruncInt (x : ℚ) : ℤ := if 0 ≤ x then ⌊x⌋ else ⌈x⌉

/-- The `ChartDocument` built by `parse_osu`: Python dict from section name to
the section's lines, in insertion order.  The key is `Option String` because
the initial current section of `parse_osu` is the tuple `(None, [])`, so the
Python `None` key (`none` here) can occur in the dict. -/
def SecDict : Type := List (Option String × List String)

/-- Python dict assignment `d[k] = v`: replace the value in place if the key
is present, else append the new binding. -/
def dictInsert : SecDict → Option String → List String → SecDict
  | [], k, v => [(k, v)]
  | e :: rest, k, v => if e.1 = k then (k, v) :: rest else e :: dictInsert rest k v

/-- Python dict lookup `d[k]`, with `none` standing for `KeyError`. -/
def dictLookup : SecDict → Option String → Option (List String)
  | [], _ => none
  | e :: rest, k => if e.1 = k then some e.2 else dictLookup rest k

/-- A word character of the regex `\w` (ASCII range: letters, digits, underscore). -/
def isWordChar (c : Char) : Bool := c.isAlphanum || c == '_'

/-- `re.match('^\[(\w+)\]$', line)` from `parse_osu` (line 66 of `app.py`):
`some name` iff the whole line is `[` + one or more word characters + `]`,
returning the bracketed group. -/
def sectionHeaderName (line : String) : Option String :=
  match line.data with
  | '[' :: rest =>
    if rest.getLast? == some ']' && !rest.dropLast.isEmpty && rest.dropLast.all isWordChar then
      some (String.mk rest.dropLast)
    else none
  | _ => none

/-- One iteration of the `parse_osu` loop (lines 64-75 of `app.py`).  The state
is `(sections, current_section)`.  The Python guards `if current_section:`
test the truthiness of `current_section`, which is always a 2-tuple and hence
always true, so both guards are resolved to their then-branches here; in
particular the `current_section = ('Default', [line])` branch of the source is
dead code and does not appear. -/
def osuStep (st : SecDict × Option String × List String) (l : String) :
    SecDict × Option String × List String :=
  let line := pyStrip l
  match sectionHeaderName line with
  | some name => (dictInsert st.1 st.2.1 st.2.2, some name, [])
  | none => (st.1, st.2.1, st.2.2 ++ [line])

/-- `parse_osu` (lines 58-80 of `app.py`), on the decoded lines of the file:
fold the loop over all lines starting from `sections = {}`,
`current_section = (None, [])`, then store the final current section. -/
def parse_osu (osu_lines : List String) : SecDict :=
  let st := osu_lines.foldl osuStep ([], none, [])
  dictInsert st.1 st.2.1 st.2.2

/-- The loop of `get_osu_key` (lines 85-92 of `app.py`).  For each line the
source evaluates `line.split(':', 1)[1]` before any comparison, so a line
without a colon raises `IndexError` (modelled as `.error "IndexError"`).
Reaching the end of the section returns the caller-supplied default, which is
modelled as `.ok none` (the default is returned unchanged, whatever it was). -/
def osuKeyLoop (key : String) : List String → Except String (Option String)
  | [] => Except.ok none
  | line :: rest =>
    match breakAtColon line.data with
    | none => Except.error "IndexError"
    | some p =>
      let ok := pyStrip (String.mk p.1)
      let ov := pyStrip (String.mk p.2)
      if pyLower ok = pyLower key then Except.ok (some ov) else osuKeyLoop key rest

/-- `get_osu_key` (lines 83-92 of `app.py`).  `osu[section]` on a missing
section raises `KeyError`; `.ok none` means "the caller-supplied default was
returned", `.ok (some v)` means the trimmed value `v` of the first matching
line was returned. -/
def get_osu_key (osu : SecDict) (sectionName key : String) : Except String (Option String) :=
  match dictLookup osu (some sectionName) with
  | none => Except.error "KeyError"
  | some sec => osuKeyLoop key sec

/-- Outcome of one iteration of the `get_tja_preview` loop: return an offset,
break out of the loop (`#start`), or continue with the next line. -/
inductive TjaAct where
  | ret (v : ℤ)
  | stop
  | next
deriving DecidableEq

/-- One iteration of the `get_tja_preview` loop (lines 114-127 of `app.py`):
strip the line; if it contains a colon, split at the first colon into
`(name, value)` — note the source compares `name.lower()` to `'demostart'`
without stripping `name` — and on a successful `float` parse of the stripped
value return `int(value * 1000)`; a failed parse continues.  A colon-free
line equal (case-insensitively) to `'#start'` breaks out of the loop. -/
def tjaLineAct (l : String) : TjaAct :=
  let line := pyStrip l
  match breakAtColon line.data with
  | some nv =>
    if pyLower (String.mk nv.1) = "demostart" then
      match parsePyFloat (pyStrip (String.mk nv.2)) with
      | some v => TjaAct.ret (pyTruncInt (v * 1000))
      | none => TjaAct.next
    else TjaAct.next
  | none => if pyLower line = "#start" then TjaAct.stop else TjaAct.next

/-- The offset a line of the tja file yields, if any: `some v` exactly when
the `get_tja_preview` loop would return `v` at this line. -/
def tjaLineYield (l : String) : Option ℤ :=
  match tjaLineAct l with
  | TjaAct.ret v => some v
  | _ => none

/-- `get_tja_preview` (lines 110-128 of `app.py`), on the decoded lines of the
file: scan the lines in order; return at the first successfully parsed
`demostart` line, return `0` at a `#start` terminator, and return `0` after
scanning every line. -/
def get_tja_preview : List String → ℤ
  | [] => 0
  | l :: rest =>
    match tjaLineAct l with
    | TjaAct.ret v => v
    | TjaAct.stop => 0
    | TjaAct.next => get_tja_preview rest

/-- The file system visible to the resolver and generator: text files
(path, decoded lines) and directories (path, entry names). -/
structure FS where
  files : List (String × List String)
  dirs : List (String × List String)
deriving DecidableEq

/-- Lookup in a path-indexed association list (first match). -/
def lookupFile : List (String × List String) → String → Option (List String)
  | [], _ => none
  | q :: rest, p => if q.1 = p then some q.2 else lookupFile rest p

/-- Insert-or-overwrite in a path-indexed association list. -/
def filesInsert : List (String × List String) → String → List String → List (String × List String)
  | [], p, v => [(p, v)]
  | q :: rest, p, v => if q.1 = p then (p, v) :: rest else q :: filesInsert rest p v

/-- `os.path.isfile`. -/
def isfile (fs : FS) (p : String) : Bool := (lookupFile fs.files p).isSome

/-- Read a text file's decoded lines; `none` when the file does not exist. -/
def readLines (fs : FS) (p : String) : Option (List String) := lookupFile fs.files p

/-- `os.listdir`: the directory's entry names, or `FileNotFoundError` when the
directory does not exist. -/
def listdir (fs : FS) (p : String) : Except String (List String) :=
  match lookupFile fs.dirs p with
  | some entries => Except.ok entries
  | none => Except.error "FileNotFoundError"

/-- Create or overwrite the file at `p` (the generated preview artifact;
its audio content is not modelled, only its existence). -/
def setFile (fs : FS) (p : String) : FS :=
  FS.mk (filesInsert fs.files p []) fs.dirs

/-- `get_preview` (lines 95-107 of `app.py`).  For the `"tja"` type: offset 0
unless `main.tja` exists, else `get_tja_preview` of its lines.  For every
other type: `os.listdir` the song directory (raising `FileNotFoundError` if it
is missing), keep the entries among the four candidate chart names in listing
order, and if any are present parse the first and take
`int(get_osu_key(osud, 'General', 'PreviewTime', 0))`; the default `0` makes
`int(0) = 0`, a returned value string is parsed by `int(...)` which raises
`ValueError` on non-numeric text. -/
def get_preview (fs : FS) (song_id song_type : String) : Except String ℤ :=
  if song_type = "tja" then
    match readLines fs ("public/songs/" ++ song_id ++ "/main.tja") with
    | some tjaLines => Except.ok (get_tja_preview tjaLines)
    | none => Except.ok 0
  else
    match listdir fs ("public/songs/" ++ song_id) with
    | Except.error e => Except.error e
    | Except.ok entries =>
      match entries.filter (fun o => ["easy.osu", "normal.osu", "hard.osu", "oni.osu"].contains o) with
      | [] => Except.ok 0
      | osu0 :: _ =>
        match readLines fs ("public/songs/" ++ song_id ++ "/" ++ osu0) with
        | none => Except.error "FileNotFoundError"
        | some osuLines =>
          match get_osu_key (parse_osu osuLines) "General" "PreviewTime" with
          | Except.error e => Except.error e
          | Except.ok none => Except.ok 0
          | Except.ok (some v) =>
            match parsePyInt v with
            | some n => Except.ok n
            | none => Except.error "ValueError"

/-- One recorded invocation of the external transcoder (`FFmpeg(...)` /
`ff.run()`): source path, `-ss` seek offset in seconds, destination path. -/
structure FFCall where
  input : String
  seek : ℚ
  output : String
deriving DecidableEq

/-- `make_preview` (lines 232-247 of `app.py`).  Result: the file system after
the call, the transcoder invocations performed, and the Python return value
(`none` for `False`, `some p` for a returned path `p`).  The guard mirrors the
source: the body runs only when `main.mp3` exists and `preview.mp3` does not;
inside it, `preview = get_preview(...) / 1000` (seconds, exact rational here)
is tested by `if not preview or preview <= 0` and the call returns `False`
without transcoding when that holds; otherwise ffmpeg is invoked, creating the
artifact.  On every path that skips the body the source returns `prev_path`. -/
def make_preview (fs : FS) (song_id song_type : String) :
    Except String (FS × List FFCall × Option String) :=
  let song_path := "public/songs/" ++ song_id ++ "/main.mp3"
  let prev_path := "public/songs/" ++ song_id ++ "/preview.mp3"
  if isfile fs song_path && !isfile fs prev_path then
    match get_preview fs song_id song_type with
    | Except.error e => Except.error e
    | Except.ok p =>
      let preview : ℚ := (p : ℚ) / 1000
      if preview = 0 ∨ preview ≤ 0 then
        Except.ok (fs, [], none)
      else
        Except.ok (setFile fs prev_path, [FFCall.mk song_path preview prev_path], some prev_path)
  else
    Except.ok (fs, [], some prev_path)

/-! ## Shared lemmas -/

theorem dictLookup_dictInsert_self (d : SecDict) (k : Option String) (v : List String) :
    dictLookup (dictInsert d k v) k = some v := by
  induction d with
  | nil => simp [dictInsert, dictLookup]
  | cons e rest ih =>
    by_cases he : e.1 = k
    · simp [dictInsert, he, dictLookup]
    · simp [dictInsert, he, dictLookup, ih]

theorem lookupFile_filesInsert_self (l : List (String × List String)) (p : String)
    (v : List String) : lookupFile (filesInsert l p v) p = some v := by
  induction l with
  | nil => simp [filesInsert, lookupFile]
  | cons q rest ih =>
    by_cases hq : q.1 = p
    · simp [filesInsert, hq, lookupFile]
    · simp [filesInsert, hq, lookupFile, ih]

theorem isfile_setFile_self (fs : FS) (p : String) : isfile (setFile fs p) p = true := by
  simp [isfile, setFile, lookupFile_filesInsert_self]

theorem breakAtColon_eq_none_iff (cs : List Char) : breakAtColon cs = none ↔ ':' ∉ cs := by
  induction cs with
  | nil => simp [breakAtColon]
  | cons c rest ih =>
    by_cases hc : c = ':'
    · subst hc; simp [breakAtColon]
    · have hc' : ':' ≠ c := fun h => hc h.symm
      simp only [breakAtColon, if_neg hc, List.mem_cons]
      cases hbr : breakAtColon rest with
      | some p =>
        have hmem : ':' ∈ rest := by
          by_contra hmem
          rw [ih.mpr hmem] at hbr
          exact Option.noConfusion hbr
        simp [hmem]
      | none =>
        have hmem : ':' ∉ rest := ih.mp hbr
        simp [hmem, hc']

theorem no_colon_of_start (s : String) (h : pyLower s = "#start") :
    breakAtColon s.data = none := by
  rw [breakAtColon_eq_none_iff]
  intro hmem
  have h2 : Char.toLower ':' ∈ s.data.map Char.toLower := List.mem_map_of_mem _ hmem
  have hd : s.data.map Char.toLower = ("#start").data := congrArg String.data h
  rw [hd] at h2
  have : Char.toLower ':' = ':' := by decide
  rw [this] at h2
  exact absurd h2 (by decide)

theorem tjaLineAct_stop_iff (a : String) :
    tjaLineAct a = TjaAct.stop ↔
      breakAtColon (pyStrip a).data = none ∧ pyLower (pyStrip a) = "#start" := by
  constructor
  · intro h
    cases hb : breakAtColon (pyStrip a).data with
    | some nv =>
      exfalso
      simp only [tjaLineAct, hb] at h
      by_cases hd : pyLower (String.mk nv.1) = "demostart"
      · simp only [if_pos hd] at h
        cases hpf : parsePyFloat (pyStrip (String.mk nv.2)) with
        | some q => rw [hpf] at h; exact TjaAct.noConfusion h
        | none => rw [hpf] at h; exact TjaAct.noConfusion h
      · simp only [if_neg hd] at h; exact TjaAct.noConfusion h
    | none =>
      refine ⟨rfl, ?_⟩
      simp only [tjaLineAct, hb] at h
      by_cases hs : pyLower (pyStrip a) = "#start"
      · exact hs
      · simp only [if_neg hs] at h; exact TjaAct.noConfusion h
  · intro ⟨hb, hs⟩
    simp [tjaLineAct, hb, hs]

theorem tja_skip (a : String) (rest : List String) (hy : tjaLineYield a = none)
    (hs : pyLower (pyStrip a) ≠ "#start") :
    get_tja_preview (a :: rest) = get_tja_preview rest := by
  cases hact : tjaLineAct a with
  | ret v => simp [tjaLineYield, hact] at hy
  | stop => exact absurd ((tjaLineAct_stop_iff a).mp hact).2 hs
  | next => simp [get_tja_preview, hact]

theorem tja_stop (a : String) (rest : List String) (hs : pyLower (pyStrip a) = "#start") :
    get_tja_preview (a :: rest) = 0 := by
  have hb : breakAtColon (pyStrip a).data = none := no_colon_of_start _ hs
  have hact : tjaLineAct a = TjaAct.stop := (tjaLineAct_stop_iff a).mpr ⟨hb, hs⟩
  simp [get_tja_preview, hact]

theorem tja_fire (a : String) (rest : List String) (v : ℤ) (hy : tjaLineYield a = some v) :
    get_tja_preview (a :: rest) = v := by
  cases hact : tjaLineAct a with
  | ret w =>
    have : w = v := by simpa [tjaLineYield, hact] using hy
    simp [get_tja_preview, hact, this]
  | stop => simp [tjaLineYield, hact] at hy
  | next => simp [tjaLineYield, hact] at hy

theorem tja_no_yield (lines : List String) (h : ∀ x ∈ lines, tjaLineYield x = none) :
    get_tja_preview lines = 0 := by
  induction lines with
  | nil => rfl
  | cons a rest ih =>
    have ha : tjaLineYield a = none := h a (List.mem_cons_self a rest)
    cases hact : tjaLineAct a with
    | ret v => simp [tjaLineYield, hact] at ha
    | stop => simp [get_tja_preview, hact]
    | next =>
      simp only [get_tja_preview, hact]
      exact ih (fun x hx => h x (List.mem_cons_of_mem a hx))

theorem osu_foldl_no_header (xs : List String) (S : SecDict) (k : Option String)
    (acc : List String) (h : ∀ l ∈ xs, sectionHeaderName (pyStrip l) = none) :
    List.foldl osuStep (S, k, acc) xs = (S, k, acc ++ xs.map pyStrip) := by
  induction xs generalizing acc with
  | nil => simp
  | cons a rest ih =>
    have ha := h a (List.mem_cons_self a rest)
    have hstep : osuStep (S, k, acc) a = (S, k, acc ++ [pyStrip a]) := by
      simp [osuStep, ha]
    rw [List.foldl_cons, hstep, ih (acc ++ [pyStrip a]) (fun l hl => h l (List.mem_cons_of_mem a hl))]
    simp

theorem make_preview_no_run (fs : FS) (song_id song_type : String)
    (h : (isfile fs ("public/songs/" ++ song_id ++ "/main.mp3") &&
          !isfile fs ("public/songs/" ++ song_id ++ "/preview.mp3")) = false) :
    make_preview fs song_id song_type =
      Except.ok (fs, [], some ("public/songs/" ++ song_id ++ "/preview.mp3")) := by
  simp only [make_preview, h, Bool.false_eq_true, if_false]

theorem make_preview_run_skip (fs : FS) (song_id song_type : String) (p : ℤ)
    (hs : isfile fs ("public/songs/" ++ song_id ++ "/main.mp3") = true)
    (hp : isfile fs ("public/songs/" ++ song_id ++ "/preview.mp3") = false)
    (hg : get_preview fs song_id song_type = Except.ok p) (hle : p ≤ 0) :
    make_preview fs song_id song_type = Except.ok (fs, [], none) := by
  have hq : ((p : ℚ) / 1000 = 0 ∨ (p : ℚ) / 1000 ≤ 0) := by
    right
    rw [div_nonpos_iff]
    right
    constructor
    · exact_mod_cast hle
    · norm_num
  simp only [make_preview, hs, hp, Bool.not_false, Bool.and_self, if_true, hg, if_pos hq]

theorem make_preview_run_transcode (fs : FS) (song_id song_type : String) (p : ℤ)
    (hs : isfile fs ("public/songs/" ++ song_id ++ "/main.mp3") = true)
    (hp : isfile fs ("public/songs/" ++ song_id ++ "/preview.mp3") = false)
    (hg : get_preview fs song_id song_type = Except.ok p) (hpos : 0 < p) :
    make_preview fs song_id song_type =
      Except.ok (setFile fs ("public/songs/" ++ song_id ++ "/preview.mp3"),
        [FFCall.mk ("public/songs/" ++ song_id ++ "/main.mp3") ((p : ℚ) / 1000)
          ("public/songs/" ++ song_id ++ "/preview.mp3")],
        some ("public/songs/" ++ song_id ++ "/preview.mp3")) := by
  have h0 : (0 : ℚ) < (p : ℚ) / 1000 := by
    apply div_pos
    · exact_mod_cast hpos
    · norm_num
  have hq : ¬((p : ℚ) / 1000 = 0 ∨ (p : ℚ) / 1000 ≤ 0) := by
    rintro (h | h)
    · exact h0.ne' h
    · exact absurd h0 (not_lt.mpr h)
  simp only [make_preview, hs, hp, Bool.not_false, Bool.and_self, if_true, hg, if_neg hq]

/-! ## Claim theorems -/

/-- C1: the Key Lookup claim states that `get_osu_key` never throws on a line
without a colon inside the target section and returns the default when the
section is missing.  The code does neither: `line.split(':', 1)[1]` raises
`IndexError` on the first colon-free line (even when a later line would
match), and `osu[section]` raises `KeyError` on a missing section.  This
theorem evaluates the embedded code at both failing inputs. -/
theorem get_osu_key_crashes :
    get_osu_key [(some "General", ["HitSoundVolume 70", "PreviewTime: 39262"])]
        "General" "PreviewTime" = Except.error "IndexError"
    ∧ get_osu_key [(none, ["PreviewTime: 39262"])] "General" "PreviewTime"
        = Except.error "KeyError" :=
  ⟨rfl, rfl⟩

/-- C2 counterexample: for a song whose directory does not exist, resolving
the preview offset with a non-`"tja"` format tag raises `FileNotFoundError`
(from `os.listdir`) instead of returning 0 as the claim states. -/
theorem get_preview_missing_dir_cex :
    get_preview (FS.mk [] []) "42" "osu" = Except.error "FileNotFoundError"
    ∧ get_preview (FS.mk [] []) "42" "osu" ≠ Except.ok 0 := by
  refine ⟨rfl, ?_⟩
  intro h
  rw [show get_preview (FS.mk [] []) "42" "osu" = Except.error "FileNotFoundError" from rfl] at h
  exact Except.noConfusion h

/-- C2 (amended): with a missing song directory the `"tja"` path returns
offset 0 (the `os.path.isfile` check tolerates the missing directory), but
every other format tag propagates `FileNotFoundError` from `os.listdir`. -/
theorem get_preview_missing_dir (fs : FS) (song_id song_type : String) :
    (readLines fs ("public/songs/" ++ song_id ++ "/main.tja") = none →
      get_preview fs song_id "tja" = Except.ok 0)
    ∧ (song_type ≠ "tja" →
        listdir fs ("public/songs/" ++ song_id) = Except.error "FileNotFoundError" →
        get_preview fs song_id song_type = Except.error "FileNotFoundError") := by
  constructor
  · intro h
    simp [get_preview, h]
  · intro ht h
    simp [get_preview, ht, h]

/-- C2 witness: both amended branches at the empty file system. -/
theorem get_preview_missing_dir_witness :
    get_preview (FS.mk [] []) "42" "tja" = Except.ok 0
    ∧ get_preview (FS.mk [] []) "42" "osu" = Except.error "FileNotFoundError" :=
  ⟨(get_preview_missing_dir (FS.mk [] []) "42" "osu").1 rfl,
   (get_preview_missing_dir (FS.mk [] []) "42" "osu").2 (by decide) rfl⟩

/-- C3: for a file with no section header, `parse_osu` does produce exactly
one section containing every trimmed line in original order — but the section
is keyed by the Python `None` (the initial `current_section = (None, [])`
name), not by `"Default"`: the `('Default', [line])` branch of the source is
dead because `if current_section:` tests a 2-tuple, which is always true. -/
theorem parse_osu_headerless (lines : List String)
    (h : ∀ l ∈ lines, sectionHeaderName (pyStrip l) = none) :
    parse_osu lines = [(none, lines.map pyStrip)] := by
  simp only [parse_osu]
  rw [osu_foldl_no_header lines [] none [] h]
  simp [dictInsert]

/-- C3 witness: a two-line headerless file yields the single `none`-keyed
section with both trimmed lines in order. -/
theorem parse_osu_headerless_witness :
    parse_osu ["PreviewTime: 39262", " x "] = [(none, ["PreviewTime: 39262", "x"])] := by
  have h : ∀ l ∈ ["PreviewTime: 39262", " x "], sectionHeaderName (pyStrip l) = none := by decide
  exact parse_osu_headerless _ h

/-- C10: when the same section header occurs more than once, the returned
document maps the name to exactly the trimmed lines following the last
occurrence (until the next header or end of input); the dict assignment at
each later occurrence overwrites the lines collected under earlier ones. -/
theorem parse_osu_duplicate_last_wins (p b c : List String) (h1 h2 X : String)
    (_hh1 : sectionHeaderName (pyStrip h1) = some X)
    (hh2 : sectionHeaderName (pyStrip h2) = some X)
    (hc : ∀ l ∈ c, sectionHeaderName (pyStrip l) = none) :
    dictLookup (parse_osu (p ++ h1 :: b ++ h2 :: c)) (some X) = some (c.map pyStrip) := by
  simp only [parse_osu]
  rw [show p ++ h1 :: b ++ h2 :: c = (p ++ h1 :: b) ++ h2 :: c by simp]
  rw [List.foldl_append, List.foldl_cons]
  rw [show osuStep (List.foldl osuStep ([], none, []) (p ++ h1 :: b)) h2
      = (dictInsert (List.foldl osuStep ([], none, []) (p ++ h1 :: b)).1
          (List.foldl osuStep ([], none, []) (p ++ h1 :: b)).2.1
          (List.foldl osuStep ([], none, []) (p ++ h1 :: b)).2.2, some X, [])
    from by simp [osuStep, hh2]]
  rw [osu_foldl_no_header c _ (some X) [] hc]
  simp [dictLookup_dictInsert_self]

/-- C10 witness: `[X]` opened twice; the lookup returns only the lines after
the second occurrence. -/
theorem parse_osu_duplicate_last_wins_witness :
    dictLookup (parse_osu ["x", "[X]", "a", "[X]", "b"]) (some "X") = some ["b"] := by
  have hh : sectionHeaderName (pyStrip "[X]") = some "X" := by decide
  have hc : ∀ l ∈ ["b"], sectionHeaderName (pyStrip l) = none := by decide
  exact parse_osu_duplicate_last_wins ["x"] ["a"] ["b"] "[X]" "[X]" "X" hh hh hc

/-- C9: if a line whose trimmed text case-insensitively equals `#start` is
reached before any successfully parsed `demostart` line, `get_tja_preview`
stops and returns 0; and a file scanned to the end with no line yielding an
offset returns 0. -/
theorem get_tja_preview_terminator :
    (∀ (pre : List String) (l : String) (post : List String),
      (∀ x ∈ pre, tjaLineYield x = none) → pyLower (pyStrip l) = "#start" →
      get_tja_preview (pre ++ l :: post) = 0)
    ∧ (∀ lines : List String, (∀ x ∈ lines, tjaLineYield x = none) →
        get_tja_preview lines = 0) := by
  constructor
  · intro pre l post hpre hl
    induction pre with
    | nil => simpa using tja_stop l post hl
    | cons a pre' ih =>
      have ha := hpre a (List.mem_cons_self a pre')
      by_cases hs : pyLower (pyStrip a) = "#start"
      · simpa using tja_stop a (pre' ++ l :: post) hs
      · rw [List.cons_append, tja_skip a _ ha hs]
        exact ih (fun x hx => hpre x (List.mem_cons_of_mem a hx))
  · exact tja_no_yield

/-- C9 witness: the `#START` terminator shadows a later `demostart` line, and
the first line (an ordinary `key:value` line) yields nothing. -/
theorem get_tja_preview_terminator_witness :
    get_tja_preview ["TITLE:x", "#START", "demostart:1.5"] = 0 := by
  have hpre : ∀ x ∈ ["TITLE:x"], tjaLineYield x = none := by decide
  have hl : pyLower (pyStrip "#START") = "#start" := by decide
  exact get_tja_preview_terminator.1 ["TITLE:x"] "#START" ["demostart:1.5"] hpre hl

/-- C5 counterexample: the claim describes the matching line by its *trimmed*
name and the result as `round(value * 1000)`.  Both fail on the code:
`"demostart :1.5"` (trimmed name `demostart`, untrimmed name `"demostart "`)
is not matched and the adapter returns 0 instead of 1500; and
`"demostart:0.9999"` returns `int(999.9) = 999` (truncation), while
`round(999.9) = 1000`. -/
theorem get_tja_preview_demostart_cex :
    parsePyFloat "0.9999" = some ((9999 : ℚ) / 10000)
    ∧ get_tja_preview ["demostart:0.9999"] = 999
    ∧ round (((9999 : ℚ) / 10000) * 1000) = 1000
    ∧ get_tja_preview ["demostart :1.5"] = 0 := by
  refine ⟨?_, ?_, ?_, by decide⟩
  · rw [show parsePyFloat "0.9999"
        = some ((digitsVal ['0'] : ℚ) + (digitsVal ['9', '9', '9', '9'] : ℚ) / (10 : ℚ) ^ 4)
      from rfl]
    norm_num [show digitsVal ['0'] = 0 from rfl, show digitsVal ['9', '9', '9', '9'] = 9999 from rfl]
  · rw [tja_fire "demostart:0.9999" []
      (pyTruncInt (((digitsVal ['0'] : ℚ) + (digitsVal ['9', '9', '9', '9'] : ℚ) / (10 : ℚ) ^ 4) * 1000)) rfl]
    norm_num [show digitsVal ['0'] = 0 from rfl, show digitsVal ['9', '9', '9', '9'] = 9999 from rfl,
      pyTruncInt]
  · norm_num [round_eq]

/-- C5 (amended): the adapter returns at the first line whose *untrimmed*
name (the text before the first colon of the stripped line) lowercases to
`demostart` and whose trimmed value parses as a float `v`, provided no earlier
line yields an offset or is a `#start` terminator; the returned offset is
`int(v * 1000)`, i.e. truncation toward zero, not rounding. -/
theorem get_tja_preview_demostart (pre : List String) (l : String) (post : List String)
    (name value : List Char) (q : ℚ)
    (hpre : ∀ x ∈ pre, tjaLineYield x = none ∧ pyLower (pyStrip x) ≠ "#start")
    (hsplit : breakAtColon (pyStrip l).data = some (name, value))
    (hname : pyLower (String.mk name) = "demostart")
    (hq : parsePyFloat (pyStrip (String.mk value)) = some q) :
    get_tja_preview (pre ++ l :: post) = pyTruncInt (q * 1000) := by
  have hact : tjaLineAct l = TjaAct.ret (pyTruncInt (q * 1000)) := by
    simp [tjaLineAct, hsplit, hname, hq]
  have hy : tjaLineYield l = some (pyTruncInt (q * 1000)) := by
    simp [tjaLineYield, hact]
  induction pre with
  | nil => simpa using tja_fire l post _ hy
  | cons a pre' ih =>
    obtain ⟨hy', hs'⟩ := hpre a (List.mem_cons_self a pre')
    rw [List.cons_append, tja_skip a _ hy' hs']
    exact ih (fun x hx => hpre x (List.mem_cons_of_mem a hx))

/-- C5 witness: `demostart:1.5` (preceded by a non-matching line and followed
by chart body) yields 1500. -/
theorem get_tja_preview_demostart_witness :
    get_tja_preview ["x", "demostart:1.5", "y"] = 1500 := by
  have h := get_tja_preview_demostart ["x"] "demostart:1.5" ["y"]
    ("demostart").data ("1.5").data
    ((digitsVal ['1'] : ℚ) + (digitsVal ['5'] : ℚ) / (10 : ℚ) ^ 1)
    (by decide) rfl rfl rfl
  exact h.trans (by
    norm_num [show digitsVal ['1'] = 1 from rfl, show digitsVal ['5'] = 5 from rfl, pyTruncInt])

/-- C6 counterexample: both adapters can return a negative offset.  A tja
file declaring `demostart:-1.5` yields -1500, and an osu chart declaring
`PreviewTime: -100` makes the sectioned path return -100. -/
theorem adapters_negative_cex :
    get_tja_preview ["demostart:-1.5"] = -1500
    ∧ get_preview (FS.mk [("public/songs/9/oni.osu", ["[General]", "PreviewTime: -100"])]
        [("public/songs/9", ["oni.osu"])]) "9" "osu" = Except.ok (-100) := by
  constructor
  · rw [tja_fire "demostart:-1.5" []
      (pyTruncInt (-((digitsVal ['1'] : ℚ) + (digitsVal ['5'] : ℚ) / (10 : ℚ) ^ 1) * 1000)) rfl]
    have harg : -((digitsVal ['1'] : ℚ) + (digitsVal ['5'] : ℚ) / (10 : ℚ) ^ 1) * 1000
        = ((-1500 : ℤ) : ℚ) := by
      norm_num [show digitsVal ['1'] = 1 from rfl, show digitsVal ['5'] = 5 from rfl]
    rw [pyTruncInt, harg, Int.ceil_intCast, Int.floor_intCast]
    norm_num
  · rfl

/-- C6 (amended): both adapters return an integer, and a nonzero offset is
always a value declared by the chart itself.  The single-pass adapter is ≥ 0
whenever every offset a line yields is ≥ 0; the sectioned path returns either
0 or exactly the integer parsed from the chart's `PreviewTime` value — so a
chart declaring a negative value makes the adapters return that negative
value, and the claimed invariant `≥ 0` holds only for charts that declare
nonnegative values. -/
theorem adapters_offset_shape :
    (∀ lines : List String, (∀ x ∈ lines, ∀ v : ℤ, tjaLineYield x = some v → 0 ≤ v) →
      0 ≤ get_tja_preview lines)
    ∧ (∀ (fs : FS) (song_id song_type : String) (n : ℤ), song_type ≠ "tja" →
        get_preview fs song_id song_type = Except.ok n →
        n = 0 ∨ ∃ osu0 osuLines s,
          readLines fs ("public/songs/" ++ song_id ++ "/" ++ osu0) = some osuLines ∧
          get_osu_key (parse_osu osuLines) "General" "PreviewTime" = Except.ok (some s) ∧
          parsePyInt s = some n) := by
  constructor
  · intro lines h
    induction lines with
    | nil => simp [get_tja_preview]
    | cons a rest ih =>
      cases hact : tjaLineAct a with
      | ret v =>
        have hv : (0 : ℤ) ≤ v :=
          h a (List.mem_cons_self a rest) v (by simp [tjaLineYield, hact])
        simpa [get_tja_preview, hact] using hv
      | stop => simp [get_tja_preview, hact]
      | next =>
        simp only [get_tja_preview, hact]
        exact ih (fun x hx v hv => h x (List.mem_cons_of_mem a hx) v hv)
  · intro fs song_id song_type n ht h
    rw [get_preview, if_neg ht] at h
    split at h
    · simp at h
    · split at h
      · simp only [Except.ok.injEq] at h
        exact Or.inl h.symm
      · split at h
        · simp at h
        · split at h
          · simp at h
          · simp only [Except.ok.injEq] at h
            exact Or.inl h.symm
          · split at h
            · rename_i x4 entries heql x3 osu0 tail heqf x2 osuLines heqr x1 s heqk x0 m heqp
              simp only [Except.ok.injEq] at h
              subst h
              exact Or.inr ⟨osu0, osuLines, s, heqr, heqk, heqp⟩
            · simp at h

/-- C6 witness: a chart declaring a nonnegative `demostart` gives a
nonnegative offset. -/
theorem adapters_offset_shape_witness : (0 : ℤ) ≤ get_tja_preview ["demostart:2.5"] := by
  apply adapters_offset_shape.1
  intro x hx v hv
  have hxx : x = "demostart:2.5" := by simpa using hx
  subst hxx
  rw [show tjaLineYield "demostart:2.5"
      = some (pyTruncInt (((digitsVal ['2'] : ℚ) + (digitsVal ['5'] : ℚ) / (10 : ℚ) ^ 1) * 1000))
    from rfl] at hv
  simp only [Option.some.injEq] at hv
  subst hv
  norm_num [show digitsVal ['2'] = 2 from rfl, show digitsVal ['5'] = 5 from rfl, pyTruncInt]

/-- C4 counterexample: with no source audio (and no artifact) the generator
does not report a distinguishable "no artifact": it returns the artifact path
itself (the final `return prev_path` runs whenever the guarded body is
skipped), although it performs no transcode. -/
theorem make_preview_missing_source_cex :
    isfile (FS.mk [] []) "public/songs/1/main.mp3" = false
    ∧ make_preview (FS.mk [] []) "1" "tja"
        = Except.ok (FS.mk [] [], [], some "public/songs/1/preview.mp3") :=
  ⟨rfl, rfl⟩

/-- C4 (amended): if the source audio `main.mp3` does not exist, the
transcoder is never invoked and the file system is unchanged, but the
generator returns the artifact path (`some prev_path`), which the caller
cannot distinguish from a successful generation. -/
theorem make_preview_missing_source (fs : FS) (song_id song_type : String)
    (h : isfile fs ("public/songs/" ++ song_id ++ "/main.mp3") = false) :
    make_preview fs song_id song_type =
      Except.ok (fs, [], some ("public/songs/" ++ song_id ++ "/preview.mp3")) :=
  make_preview_no_run fs song_id song_type (by rw [h]; rfl)

/-- C4 witness: the amended behaviour at an empty file system. -/
theorem make_preview_missing_source_witness :
    make_preview (FS.mk [] []) "2" "osu"
      = Except.ok (FS.mk [] [], [], some "public/songs/2/preview.mp3") :=
  make_preview_missing_source (FS.mk [] []) "2" "osu" rfl

/-- C7: if the preview artifact already exists the generator returns its path
immediately with no transcoder invocation; and after any successful call, a
second call performs no transcode, leaves the file system unchanged and
returns the same result, the two calls together transcoding at most once. -/
theorem make_preview_idempotent (fs : FS) (song_id song_type : String) :
    (isfile fs ("public/songs/" ++ song_id ++ "/preview.mp3") = true →
      make_preview fs song_id song_type =
        Except.ok (fs, [], some ("public/songs/" ++ song_id ++ "/preview.mp3")))
    ∧ (∀ (fs1 : FS) (c1 : List FFCall) (r1 : Option String),
        make_preview fs song_id song_type = Except.ok (fs1, c1, r1) →
        make_preview fs1 song_id song_type = Except.ok (fs1, [], r1) ∧ c1.length ≤ 1) := by
  constructor
  · intro hprev
    apply make_preview_no_run
    rw [hprev]
    simp
  · intro fs1 c1 r1 h
    cases hcond : (isfile fs ("public/songs/" ++ song_id ++ "/main.mp3") &&
        !isfile fs ("public/songs/" ++ song_id ++ "/preview.mp3")) with
    | false =>
      rw [make_preview_no_run fs song_id song_type hcond] at h
      simp only [Except.ok.injEq, Prod.mk.injEq] at h
      obtain ⟨h1, h2, h3⟩ := h
      subst h1; subst h2; subst h3
      exact ⟨make_preview_no_run fs song_id song_type hcond, by simp⟩
    | true =>
      rw [Bool.and_eq_true, Bool.not_eq_true'] at hcond
      obtain ⟨hs, hp⟩ := hcond
      cases hg : get_preview fs song_id song_type with
      | error e => simp [make_preview, hs, hp, hg] at h
      | ok p =>
        by_cases hple : p ≤ 0
        · rw [make_preview_run_skip fs song_id song_type p hs hp hg hple] at h
          simp only [Except.ok.injEq, Prod.mk.injEq] at h
          obtain ⟨h1, h2, h3⟩ := h
          subst h1; subst h2; subst h3
          exact ⟨make_preview_run_skip fs song_id song_type p hs hp hg hple, by simp⟩
        · have hpos : 0 < p := not_le.mp hple
          rw [make_preview_run_transcode fs song_id song_type p hs hp hg hpos] at h
          simp only [Except.ok.injEq, Prod.mk.injEq] at h
          obtain ⟨h1, h2, h3⟩ := h
          subst h1; subst h2; subst h3
          refine ⟨?_, by simp⟩
          apply make_preview_no_run
          rw [isfile_setFile_self]
          simp

/-- C7 witness: first conjunct at a file system already holding the artifact;
second conjunct applied to a successful first call that transcoded, showing
the second call is a no-op returning the same path. -/
theorem make_preview_idempotent_witness :
    make_preview (FS.mk [("public/songs/3/preview.mp3", [])] []) "3" "osu"
      = Except.ok (FS.mk [("public/songs/3/preview.mp3", [])] [], [],
          some "public/songs/3/preview.mp3")
    ∧ make_preview
        (setFile (FS.mk [("public/songs/4/main.mp3", []),
          ("public/songs/4/main.tja", ["demostart:2"])] []) "public/songs/4/preview.mp3")
        "4" "tja"
      = Except.ok
          (setFile (FS.mk [("public/songs/4/main.mp3", []),
            ("public/songs/4/main.tja", ["demostart:2"])] []) "public/songs/4/preview.mp3",
           [], some "public/songs/4/preview.mp3") := by
  constructor
  · exact (make_preview_idempotent (FS.mk [("public/songs/3/preview.mp3", [])] []) "3" "osu").1 rfl
  · have hpos : (0 : ℤ) < pyTruncInt ((digitsVal ['2'] : ℚ) * 1000) := by
      norm_num [show digitsVal ['2'] = 2 from rfl, pyTruncInt]
    have hfirst := make_preview_run_transcode
      (FS.mk [("public/songs/4/main.mp3", []), ("public/songs/4/main.tja", ["demostart:2"])] [])
      "4" "tja" (pyTruncInt ((digitsVal ['2'] : ℚ) * 1000)) rfl rfl rfl hpos
    exact ((make_preview_idempotent
      (FS.mk [("public/songs/4/main.mp3", []), ("public/songs/4/main.tja", ["demostart:2"])] [])
      "4" "tja").2 _ _ _ hfirst).1

/-- C8: when the source audio exists, the artifact does not, and the resolved
offset is non-positive (so the seek in seconds is zero or negative), the
generator returns `False` ("no preview"), never invokes the transcoder, and
leaves the file system unchanged. -/
theorem make_preview_nonpositive_skip (fs : FS) (song_id song_type : String) (p : ℤ)
    (hs : isfile fs ("public/songs/" ++ song_id ++ "/main.mp3") = true)
    (hp : isfile fs ("public/songs/" ++ song_id ++ "/preview.mp3") = false)
    (hg : get_preview fs song_id song_type = Except.ok p) (hle : p ≤ 0) :
    make_preview fs song_id song_type = Except.ok (fs, [], none) :=
  make_preview_run_skip fs song_id song_type p hs hp hg hle

/-- C8 witness: a song with source audio and an empty tja chart (offset 0)
is skipped, with the file system returned unchanged. -/
theorem make_preview_nonpositive_skip_witness :
    make_preview (FS.mk [("public/songs/7/main.mp3", []),
        ("public/songs/7/main.tja", [])] []) "7" "tja"
      = Except.ok (FS.mk [("public/songs/7/main.mp3", []),
          ("public/songs/7/main.tja", [])] [], [], none) :=
  make_preview_nonpositive_skip
    (FS.mk [("public/songs/7/main.mp3", []), ("public/songs/7/main.tja", [])] [])
    "7" "tja" 0 rfl rfl rfl (by decide)
